import Mathlib

/-!
Verification of the Skew-T custom projection in `skewt_iasi_0139.py`.

The source builds, on top of matplotlib, a skewed-axis coordinate system:

* `SkewXAxes._set_lim_and_transforms` composes
  `transDataToAxes = transScale + transLimits + Affine2D().skew_deg(rot, 0)`
  with `rot = 30`, and `transData = transDataToAxes + transAxes`;
* `SkewXAxes.upper_xlim` inverse-transforms the points `(0,1)` and `(1,1)`
  through `transDataToAxes` and keeps the X components;
* `SkewXAxes.lower_xlim` is `viewLim.intervalx`;
* `SkewXTick` gates tick-mark, label and gridline visibility by interval
  containment of the tick location;
* `SkewXAxis.get_view_interval` is `(upper_xlim[0], lower_xlim[1])`;
* `SkewSpine._adjust_location` overwrites the top spine path X coordinates
  with `upper_xlim`.

The embedding works over exact rationals.  Machine floats of the source are
modelled by `ℚ`; the tangent of the fixed 30-degree shear angle, a float in
the source, is carried as a symbolic rational parameter `t` of the state.
Axis scale transforms (linear / log) are modelled as abstract function
pairs, instantiated with the identity (linear scale) in concrete witnesses.
Division by zero follows the Lean total-division convention `q / 0 = 0`,
standing in for the silent non-finite values float division produces: in
both semantics a degenerate configuration yields junk values, not an error.
-/

namespace SkewT

/-- A planar affine map, modelling matplotlib `Affine2D`: the matrix
`[[a, b], [c, d]]` together with the translation `(e, f)`. -/
structure Affine2 where
  a : ℚ
  b : ℚ
  c : ℚ
  d : ℚ
  e : ℚ
  f : ℚ
deriving DecidableEq

/-- Apply an affine map to a point. -/
def Affine2.apply (m : Affine2) (p : ℚ × ℚ) : ℚ × ℚ :=
  (m.a * p.1 + m.b * p.2 + m.e, m.c * p.1 + m.d * p.2 + m.f)

/-- Composition: `m.compose n` applies `m` first and then `n`; this is the
matplotlib transform composition `m + n` restricted to affine maps. -/
def Affine2.compose (m n : Affine2) : Affine2 where
  a := n.a * m.a + n.b * m.c
  b := n.a * m.b + n.b * m.d
  c := n.c * m.a + n.d * m.c
  d := n.c * m.b + n.d * m.d
  e := n.a * m.e + n.b * m.f + n.e
  f := n.c * m.e + n.d * m.f + n.f

/-- Determinant of the linear part. -/
def Affine2.det (m : Affine2) : ℚ :=
  m.a * m.d - m.b * m.c

/-- Matrix inverse of an affine map (adjugate over determinant), modelling
matplotlib `Affine2DBase.inverted`.  Total over `ℚ`: a singular map yields
the junk value of division by zero, the exact-arithmetic counterpart of the
non-finite entries float inversion produces. -/
def Affine2.inverted (m : Affine2) : Affine2 where
  a := m.d / m.det
  b := -m.b / m.det
  c := -m.c / m.det
  d := m.a / m.det
  e := -(m.d / m.det * m.e + -m.b / m.det * m.f)
  f := -(-m.c / m.det * m.e + m.a / m.det * m.f)

/-- Source `Affine2D().skew_deg(rot, 0)`, with `t` standing for the
tangent of `rot` degrees (`rot = 30` in `_set_lim_and_transforms`):
`x ↦ x + t * y`, `y ↦ y`. -/
def skew_deg (t : ℚ) : Affine2 :=
  ⟨1, t, 0, 1, 0, 0⟩

/-- matplotlib `BboxTransformFrom`: the affine map taking the box with
corners `(x0, y0)`, `(x1, y1)` to the unit square. -/
def bboxTransformFrom (x0 x1 y0 y1 : ℚ) : Affine2 :=
  ⟨1 / (x1 - x0), 0, 0, 1 / (y1 - y0), -(x0 / (x1 - x0)), -(y0 / (y1 - y0))⟩

/-- One axis scale transform (matplotlib scale, e.g. linear or log), as a
forward map and its inverse map. -/
structure AxScale where
  fwd : ℚ → ℚ
  inv : ℚ → ℚ

/-- The linear (identity) scale. -/
def linearScale : AxScale :=
  ⟨fun z => z, fun z => z⟩

/-- The state of a `SkewXAxes` instance that the transform stack reads:
the per-axis scale transforms, the view limits `viewLim`, the tangent `t`
of the fixed shear angle (`rot = 30` degrees in the source), and the
viewport transform `transAxes`. -/
structure SkewXAxes where
  xscale : AxScale
  yscale : AxScale
  xlo : ℚ
  xhi : ℚ
  ylo : ℚ
  yhi : ℚ
  t : ℚ
  transAxes : Affine2

namespace SkewXAxes

/-- Application of `transScale` to a point. -/
def transScaleApply (st : SkewXAxes) (p : ℚ × ℚ) : ℚ × ℚ :=
  (st.xscale.fwd p.1, st.yscale.fwd p.2)

/-- The inverse of `transScale` applied to a point. -/
def transScaleInv (st : SkewXAxes) (p : ℚ × ℚ) : ℚ × ℚ :=
  (st.xscale.inv p.1, st.yscale.inv p.2)

/-- Scaled lower X view limit (`TransformedBbox(viewLim, transScale)`). -/
def sxlo (st : SkewXAxes) : ℚ := st.xscale.fwd st.xlo

/-- Scaled upper X view limit. -/
def sxhi (st : SkewXAxes) : ℚ := st.xscale.fwd st.xhi

/-- Scaled lower Y view limit. -/
def sylo (st : SkewXAxes) : ℚ := st.yscale.fwd st.ylo

/-- Scaled upper Y view limit. -/
def syhi (st : SkewXAxes) : ℚ := st.yscale.fwd st.yhi

/-- Source `transLimits`: normalization of the scaled view limits to the unit
square, `BboxTransformFrom(TransformedBbox(viewLim, transScale))`. -/
def transLimits (st : SkewXAxes) : Affine2 :=
  bboxTransformFrom st.sxlo st.sxhi st.sylo st.syhi

/-- The affine tail of `transDataToAxes`, i.e.
`transLimits + Affine2D().skew_deg(rot, 0)` from
`_set_lim_and_transforms`; everything after `transScale`. -/
def preAffine (st : SkewXAxes) : Affine2 :=
  st.transLimits.compose (skew_deg st.t)

/-- Forward application of `transDataToAxes = transScale + transLimits +
skew` (source lines 154-155). -/
def transDataToAxes_apply (st : SkewXAxes) (p : ℚ × ℚ) : ℚ × ℚ :=
  st.preAffine.apply (st.transScaleApply p)

/-- Application of `transDataToAxes.inverted()`: the matrix inverse of the
affine tail followed by the inverse scale. -/
def transDataToAxes_invApply (st : SkewXAxes) (q : ℚ × ℚ) : ℚ × ℚ :=
  st.transScaleInv (st.preAffine.inverted.apply q)

/-- Application of `transData = transDataToAxes + transAxes`
(source line 158). -/
def transData_apply (st : SkewXAxes) (p : ℚ × ℚ) : ℚ × ℚ :=
  st.transAxes.apply (st.transDataToAxes_apply p)

/-- The point after `transScale + transLimits` but before the skew: the
normalized-axes coordinates of a data point. -/
def normCoords (st : SkewXAxes) (p : ℚ × ℚ) : ℚ × ℚ :=
  st.transLimits.apply (st.transScaleApply p)

/-- Source `SkewXAxes.lower_xlim` (lines 167-169): the direct X view
limits `viewLim.intervalx`. -/
def lower_xlim (st : SkewXAxes) : ℚ × ℚ :=
  (st.xlo, st.xhi)

/-- Source `SkewXAxes.upper_xlim` (lines 171-174): the X components of
`transDataToAxes.inverted().transform([[0,1],[1,1]])`, in that order. -/
def upper_xlim (st : SkewXAxes) : ℚ × ℚ :=
  ((st.transDataToAxes_invApply (0, 1)).1, (st.transDataToAxes_invApply (1, 1)).1)

/-- Source `SkewXAxis.get_view_interval` (lines 98-99):
`(upper_xlim[0], lower_xlim[1])`. -/
def get_view_interval (st : SkewXAxes) : ℚ × ℚ :=
  (st.upper_xlim.1, st.lower_xlim.2)

end SkewXAxes

/-- matplotlib `transforms.interval_contains(interval, val)`: swap the
bounds when given in decreasing order, then test inclusively. -/
def interval_contains (i : ℚ × ℚ) (v : ℚ) : Bool :=
  if i.2 < i.1 then decide (i.2 ≤ v) && decide (v ≤ i.1)
  else decide (i.1 ≤ v) && decide (v ≤ i.2)

/-- Spec-side inclusive containment of a value in an interval given by an
unordered pair of bounds. -/
def containsIncl (i : ℚ × ℚ) (v : ℚ) : Prop :=
  min i.1 i.2 ≤ v ∧ v ≤ max i.1 i.2

instance (i : ℚ × ℚ) (v : ℚ) : Decidable (containsIncl i v) := by
  unfold containsIncl; infer_instance

/-- The stored per-tick state of a `SkewXTick`: the location `_loc`
(`none` models the unset / default-placement location `None`) and the raw
visibility flags `_gridOn`, `_tick1On`, `_label1On`, `_tick2On`,
`_label2On` written by the property setters. -/
structure SkewXTick where
  loc : Option ℚ
  gridOnFlag : Bool
  tick1OnFlag : Bool
  label1OnFlag : Bool
  tick2OnFlag : Bool
  label2OnFlag : Bool
deriving DecidableEq

namespace SkewXTick

/-- Source `SkewXTick._has_default_loc`: the location is unset. -/
def has_default_loc (tk : SkewXTick) : Bool :=
  tk.loc.isNone

/-- Source `SkewXTick._need_lower`: unset location, or the location is contained
in `axes.lower_xlim`. -/
def need_lower (st : SkewXAxes) (tk : SkewXTick) : Bool :=
  match tk.loc with
  | none => true
  | some l => interval_contains st.lower_xlim l

/-- Source `SkewXTick._need_upper`: unset location, or the location is contained
in `axes.upper_xlim`. -/
def need_upper (st : SkewXAxes) (tk : SkewXTick) : Bool :=
  match tk.loc with
  | none => true
  | some l => interval_contains st.upper_xlim l

/-- Source `SkewXTick.get_view_interval`: delegates to
`axes.xaxis.get_view_interval()`, the `SkewXAxis` override. -/
def get_view_interval (st : SkewXAxes) : ℚ × ℚ :=
  st.get_view_interval

/-- The `gridOn` property getter: raw flag AND (unset location OR
containment in the combined view interval). -/
def gridOn (st : SkewXAxes) (tk : SkewXTick) : Bool :=
  tk.gridOnFlag &&
    (match tk.loc with
     | none => true
     | some l => interval_contains (SkewXTick.get_view_interval st) l)

/-- The `tick1On` property getter. -/
def tick1On (st : SkewXAxes) (tk : SkewXTick) : Bool :=
  tk.tick1OnFlag && tk.need_lower st

/-- The `label1On` property getter. -/
def label1On (st : SkewXAxes) (tk : SkewXTick) : Bool :=
  tk.label1OnFlag && tk.need_lower st

/-- The `tick2On` property getter. -/
def tick2On (st : SkewXAxes) (tk : SkewXTick) : Bool :=
  tk.tick2OnFlag && tk.need_upper st

/-- The `label2On` property getter. -/
def label2On (st : SkewXAxes) (tk : SkewXTick) : Bool :=
  tk.label2OnFlag && tk.need_upper st

/-- The `gridOn` property setter: stores the raw flag. -/
def set_gridOn (tk : SkewXTick) (v : Bool) : SkewXTick :=
  { tk with gridOnFlag := v }

/-- The `tick1On` property setter: stores the raw flag. -/
def set_tick1On (tk : SkewXTick) (v : Bool) : SkewXTick :=
  { tk with tick1OnFlag := v }

/-- The `label1On` property setter: stores the raw flag. -/
def set_label1On (tk : SkewXTick) (v : Bool) : SkewXTick :=
  { tk with label1OnFlag := v }

/-- The `tick2On` property setter: stores the raw flag. -/
def set_tick2On (tk : SkewXTick) (v : Bool) : SkewXTick :=
  { tk with tick2OnFlag := v }

/-- The `label2On` property setter: stores the raw flag. -/
def set_label2On (tk : SkewXTick) (v : Bool) : SkewXTick :=
  { tk with label2OnFlag := v }

end SkewXTick

/-- The four spine edges of the plot. -/
inductive SpineType where
  | top
  | bottom
  | left
  | right
deriving DecidableEq

/-- The drawn boundary path of one spine, reduced to the coordinates the
adjustment code touches: the X and Y coordinates of its two path
vertices. -/
structure Spine where
  spine_type : SpineType
  pathXs : ℚ × ℚ
  pathYs : ℚ × ℚ
deriving DecidableEq

/-- Source `SkewSpine._adjust_location` (lines 105-111): for the `top`
spine overwrite the path X coordinates with `upper_xlim`, otherwise with
`lower_xlim`. -/
def SkewSpine_adjust_location (st : SkewXAxes) (sp : Spine) : Spine :=
  if sp.spine_type = SpineType.top then
    { sp with pathXs := st.upper_xlim }
  else
    { sp with pathXs := st.lower_xlim }

/-- Modelled from the spec: the standard host-library
`Spine._adjust_location` (matplotlib base class, not in this repository):
spines tagged `bottom`, `left`, `right` (and a plain `top`) "use the
direct view limits of the axis unchanged (standard behavior, no override) —
horizontal spines track the direct X view limits, vertical spines the
direct Y view limits. -/
def Spine_adjust_location (st : SkewXAxes) (sp : Spine) : Spine :=
  match sp.spine_type with
  | SpineType.top => { sp with pathXs := (st.xlo, st.xhi) }
  | SpineType.bottom => { sp with pathXs := (st.xlo, st.xhi) }
  | SpineType.left => { sp with pathYs := (st.ylo, st.yhi) }
  | SpineType.right => { sp with pathYs := (st.ylo, st.yhi) }

/-- Which spine class `SkewXAxes._gen_axes_spines` (source lines 132-137)
instantiates for each edge: `SkewSpine` for `top`, the standard
`mspines.Spine` for the rest.  `true` means `SkewSpine`. -/
def gen_axes_spines_is_skew : SpineType → Bool
  | SpineType.top => true
  | _ => false

/-- The location adjustment the generated spine for a given edge performs
on a layout pass: the `SkewSpine` override for the `top` edge, the
standard behavior for the others. -/
def spine_layout_adjust (st : SkewXAxes) (sp : Spine) : Spine :=
  if gen_axes_spines_is_skew sp.spine_type then
    SkewSpine_adjust_location st sp
  else
    Spine_adjust_location st sp

/-- The identity affine map. -/
def idAffine : Affine2 :=
  ⟨1, 0, 0, 1, 0, 0⟩

/-- A concrete state matching the demo at the bottom of the script:
`set_xlim(-50, 50)`, `set_ylim(1050, 100)`, shear `rot = 30` modelled by
the rational tangent stand-in `7/12`; the scales are instantiated linear
so that the state is fully concrete and evaluable. -/
def exampleState : SkewXAxes :=
  ⟨linearScale, linearScale, -50, 50, 1050, 100, 7 / 12, idAffine⟩

/-- A state with zero-width X view limits (`xlo = xhi = 3`): the
degenerate configuration of the error-handling policy. -/
def degenState : SkewXAxes :=
  ⟨linearScale, linearScale, 3, 3, 0, 1, 7 / 12, idAffine⟩

/-- A small nondegenerate state with unit X view limits. -/
def unitState : SkewXAxes :=
  ⟨linearScale, linearScale, 0, 1, 0, 1, 7 / 12, idAffine⟩

/-! Helper lemmas about the embedded transform algebra. -/

theorem Affine2.compose_apply (m n : Affine2) (p : ℚ × ℚ) :
    (m.compose n).apply p = n.apply (m.apply p) := by
  simp only [Affine2.apply, Affine2.compose, Prod.mk.injEq]
  constructor <;> ring

/-- A nonsingular affine map composed with its matrix inverse is the
identity (forward after inverse). -/
theorem Affine2.apply_inverted_apply (m : Affine2) (h : m.det ≠ 0)
    (p : ℚ × ℚ) : m.apply (m.inverted.apply p) = p := by
  obtain ⟨a, b, c, d, e, f⟩ := m
  obtain ⟨px, py⟩ := p
  simp only [Affine2.apply, Affine2.inverted, Affine2.det, Prod.mk.injEq] at *
  constructor <;> · field_simp; ring

/-- A nonsingular affine map composed with its matrix inverse is the
identity (inverse after forward). -/
theorem Affine2.inverted_apply_apply (m : Affine2) (h : m.det ≠ 0)
    (p : ℚ × ℚ) : m.inverted.apply (m.apply p) = p := by
  obtain ⟨a, b, c, d, e, f⟩ := m
  obtain ⟨px, py⟩ := p
  simp only [Affine2.apply, Affine2.inverted, Affine2.det, Prod.mk.injEq] at *
  constructor <;> · field_simp; ring

theorem interval_contains_iff (i : ℚ × ℚ) (v : ℚ) :
    interval_contains i v = true ↔ containsIncl i v := by
  obtain ⟨lo, hi⟩ := i
  simp only [interval_contains, containsIncl]
  rcases lt_or_le hi lo with h | h
  · rw [if_pos h]
    simp [min_eq_right h.le, max_eq_left h.le]
  · rw [if_neg (not_lt.mpr h)]
    simp [min_eq_left h, max_eq_right h]

theorem SkewXAxes.preAffine_det (st : SkewXAxes) :
    st.preAffine.det = 1 / ((st.sxhi - st.sxlo) * (st.syhi - st.sylo)) := by
  simp only [preAffine, transLimits, bboxTransformFrom, skew_deg,
    Affine2.compose, Affine2.det]
  ring_nf
  rw [← mul_inv]
  congr 1
  ring

/-- Closed form of the derived upper interval for a nondegenerate state:
the scaled bounds are the scaled lower bounds shifted left by the shear
tangent times the scaled X width. -/
theorem SkewXAxes.upper_xlim_closed (st : SkewXAxes)
    (hx : st.sxhi - st.sxlo ≠ 0) (hy : st.syhi - st.sylo ≠ 0) :
    st.upper_xlim =
      (st.xscale.inv (st.sxlo - st.t * (st.sxhi - st.sxlo)),
       st.xscale.inv (st.sxhi - st.t * (st.sxhi - st.sxlo))) := by
  simp only [upper_xlim, transDataToAxes_invApply, transScaleInv, preAffine,
    transLimits, bboxTransformFrom, skew_deg, Affine2.compose,
    Affine2.inverted, Affine2.det, Affine2.apply, Prod.mk.injEq]
  constructor <;> · congr 1; field_simp; ring

/-! Claim theorems. -/

/-- C1: for every nondegenerate transform state, `upper_xlim` equals the
pair of X components of the images of `(0, 1)` and `(1, 1)` under the
inverse of the pre-viewport transform `transDataToAxes`, in exactly the
order the inverse mapping produces (no sorting), and the mapping used is
a genuine inverse: pushing both images forward through `transDataToAxes`
recovers `(0, 1)` and `(1, 1)`. -/
theorem upper_xlim_is_inverse_image (st : SkewXAxes)
    (hx : st.sxhi - st.sxlo ≠ 0) (hy : st.syhi - st.sylo ≠ 0)
    (hxs : ∀ z, st.xscale.fwd (st.xscale.inv z) = z)
    (hys : ∀ z, st.yscale.fwd (st.yscale.inv z) = z) :
    st.upper_xlim =
      ((st.transDataToAxes_invApply (0, 1)).1,
       (st.transDataToAxes_invApply (1, 1)).1) ∧
    st.transDataToAxes_apply (st.transDataToAxes_invApply (0, 1)) = (0, 1) ∧
    st.transDataToAxes_apply (st.transDataToAxes_invApply (1, 1)) = (1, 1) := by
  have hdet : st.preAffine.det ≠ 0 := by
    rw [SkewXAxes.preAffine_det]
    exact one_div_ne_zero (mul_ne_zero hx hy)
  refine ⟨rfl, ?_, ?_⟩ <;>
  · simp only [SkewXAxes.transDataToAxes_apply, SkewXAxes.transDataToAxes_invApply,
      SkewXAxes.transScaleApply, SkewXAxes.transScaleInv, hxs, hys]
    exact st.preAffine.apply_inverted_apply hdet _

/-- Witness for C1 at the concrete demo state. -/
theorem upper_xlim_is_inverse_image_witness :
    exampleState.upper_xlim =
      ((exampleState.transDataToAxes_invApply (0, 1)).1,
       (exampleState.transDataToAxes_invApply (1, 1)).1) ∧
    exampleState.transDataToAxes_apply
      (exampleState.transDataToAxes_invApply (0, 1)) = (0, 1) ∧
    exampleState.transDataToAxes_apply
      (exampleState.transDataToAxes_invApply (1, 1)) = (1, 1) :=
  upper_xlim_is_inverse_image exampleState
    (by norm_num [SkewXAxes.sxhi, SkewXAxes.sxlo, exampleState, linearScale])
    (by norm_num [SkewXAxes.syhi, SkewXAxes.sylo, exampleState, linearScale])
    (fun _ => rfl) (fun _ => rfl)

/-- C2: the viewport step `transAxes` is applied strictly after the
pre-viewport transform; within the pre-viewport transform the shear acts
after scale and limits-normalization, shifting the normalized X
coordinate by `t * v` where `v` is the normalized Y coordinate and `t`
models `tan(30 degrees)`, so two points with equal normalized Y are
shifted horizontally by the same amount. -/
theorem shear_in_normalized_axes_space (st : SkewXAxes) (p q : ℚ × ℚ)
    (h : (st.normCoords p).2 = (st.normCoords q).2) :
    st.transData_apply p = st.transAxes.apply (st.transDataToAxes_apply p) ∧
    (st.transDataToAxes_apply p).1 =
      (st.normCoords p).1 + st.t * (st.normCoords p).2 ∧
    (st.transDataToAxes_apply p).2 = (st.normCoords p).2 ∧
    (st.transDataToAxes_apply p).1 - (st.normCoords p).1 =
      (st.transDataToAxes_apply q).1 - (st.normCoords q).1 := by
  have key : ∀ r : ℚ × ℚ, st.transDataToAxes_apply r =
      ((st.normCoords r).1 + st.t * (st.normCoords r).2, (st.normCoords r).2) := by
    intro r
    simp only [SkewXAxes.transDataToAxes_apply, SkewXAxes.preAffine,
      SkewXAxes.normCoords, Affine2.compose, skew_deg, Affine2.apply,
      Prod.mk.injEq]
    constructor <;> ring
  refine ⟨rfl, ?_, ?_, ?_⟩
  · rw [key p]
  · rw [key p]
  · rw [key p, key q]
    simp only [add_sub_cancel_left]
    rw [h]

/-- Witness for C2 at the concrete demo state with two points of equal
normalized Y. -/
theorem shear_in_normalized_axes_space_witness :
    exampleState.transData_apply (-10, 500) =
      exampleState.transAxes.apply (exampleState.transDataToAxes_apply (-10, 500)) ∧
    (exampleState.transDataToAxes_apply (-10, 500)).1 =
      (exampleState.normCoords (-10, 500)).1 +
        exampleState.t * (exampleState.normCoords (-10, 500)).2 ∧
    (exampleState.transDataToAxes_apply (-10, 500)).2 =
      (exampleState.normCoords (-10, 500)).2 ∧
    (exampleState.transDataToAxes_apply (-10, 500)).1 -
        (exampleState.normCoords (-10, 500)).1 =
      (exampleState.transDataToAxes_apply (20, 500)).1 -
        (exampleState.normCoords (20, 500)).1 :=
  shear_in_normalized_axes_space exampleState (-10, 500) (20, 500)
    (by norm_num [exampleState, SkewXAxes.normCoords, SkewXAxes.transScaleApply,
      SkewXAxes.transLimits, bboxTransformFrom, SkewXAxes.sxlo, SkewXAxes.sxhi,
      SkewXAxes.sylo, SkewXAxes.syhi, linearScale, Affine2.apply])

/-- C8: for every nondegenerate state (nonzero scaled widths, scale maps
inverted by their inverse maps), mapping the reference points `(0, 1)`
and `(1, 1)` forward through `transDataToAxes` and back through its
inverse reproduces them exactly (exact rational arithmetic, hence within
any floating-point tolerance). -/
theorem roundtrip_reference_points (st : SkewXAxes)
    (hx : st.sxhi - st.sxlo ≠ 0) (hy : st.syhi - st.sylo ≠ 0)
    (hxs : ∀ z, st.xscale.inv (st.xscale.fwd z) = z)
    (hys : ∀ z, st.yscale.inv (st.yscale.fwd z) = z) :
    st.transDataToAxes_invApply (st.transDataToAxes_apply (0, 1)) = (0, 1) ∧
    st.transDataToAxes_invApply (st.transDataToAxes_apply (1, 1)) = (1, 1) := by
  have hdet : st.preAffine.det ≠ 0 := by
    rw [SkewXAxes.preAffine_det]
    exact one_div_ne_zero (mul_ne_zero hx hy)
  constructor <;>
  · simp only [SkewXAxes.transDataToAxes_apply, SkewXAxes.transDataToAxes_invApply]
    rw [st.preAffine.inverted_apply_apply hdet]
    simp [SkewXAxes.transScaleInv, SkewXAxes.transScaleApply, hxs, hys]

/-- Witness for C8 at the concrete demo state. -/
theorem roundtrip_reference_points_witness :
    exampleState.transDataToAxes_invApply
      (exampleState.transDataToAxes_apply (0, 1)) = (0, 1) ∧
    exampleState.transDataToAxes_invApply
      (exampleState.transDataToAxes_apply (1, 1)) = (1, 1) :=
  roundtrip_reference_points exampleState
    (by norm_num [SkewXAxes.sxhi, SkewXAxes.sxlo, exampleState, linearScale])
    (by norm_num [SkewXAxes.syhi, SkewXAxes.sylo, exampleState, linearScale])
    (fun _ => rfl) (fun _ => rfl)

/-- C3: for a tick with a set location, each bottom-edge visibility
(`tick1On`, `label1On`) equals its stored flag AND inclusive containment
of the location in the lower interval, each top-edge visibility
(`tick2On`, `label2On`) equals its stored flag AND inclusive containment
in the upper interval, and the containment test is inclusive at both
endpoints of any interval. -/
theorem tick_visibility_per_edge (st : SkewXAxes) (l : ℚ)
    (g t1 l1 t2 l2 : Bool) :
    (SkewXTick.tick1On st ⟨some l, g, t1, l1, t2, l2⟩ = true ↔
      t1 = true ∧ containsIncl st.lower_xlim l) ∧
    (SkewXTick.label1On st ⟨some l, g, t1, l1, t2, l2⟩ = true ↔
      l1 = true ∧ containsIncl st.lower_xlim l) ∧
    (SkewXTick.tick2On st ⟨some l, g, t1, l1, t2, l2⟩ = true ↔
      t2 = true ∧ containsIncl st.upper_xlim l) ∧
    (SkewXTick.label2On st ⟨some l, g, t1, l1, t2, l2⟩ = true ↔
      l2 = true ∧ containsIncl st.upper_xlim l) ∧
    (∀ a b : ℚ, interval_contains (a, b) a = true ∧
      interval_contains (a, b) b = true) := by
  refine ⟨?_, ?_, ?_, ?_, ?_⟩
  · simp [SkewXTick.tick1On, SkewXTick.need_lower, interval_contains_iff]
  · simp [SkewXTick.label1On, SkewXTick.need_lower, interval_contains_iff]
  · simp [SkewXTick.tick2On, SkewXTick.need_upper, interval_contains_iff]
  · simp [SkewXTick.label2On, SkewXTick.need_upper, interval_contains_iff]
  · intro a b
    refine ⟨?_, ?_⟩
    · rw [interval_contains_iff]
      exact ⟨min_le_left a b, le_max_left a b⟩
    · rw [interval_contains_iff]
      exact ⟨min_le_right a b, le_max_right a b⟩

/-- C4: the gridline is visible iff the stored gridline flag is set and
the location is unset or lies in the combined view interval; the custom
X axis reports its total view interval as
`(upper_xlim[0], lower_xlim[1])`, which is exactly the interval the
gridline test consults. -/
theorem gridline_combined_interval (st : SkewXAxes) (tk : SkewXTick) :
    (SkewXTick.gridOn st tk = true ↔
      tk.gridOnFlag = true ∧
        (tk.loc = none ∨
          ∃ l, tk.loc = some l ∧ containsIncl st.get_view_interval l)) ∧
    st.get_view_interval = (st.upper_xlim.1, st.lower_xlim.2) ∧
    SkewXTick.get_view_interval st = st.get_view_interval := by
  refine ⟨?_, rfl, rfl⟩
  cases h : tk.loc with
  | none => simp [SkewXTick.gridOn, SkewXTick.get_view_interval, h]
  | some l => simp [SkewXTick.gridOn, SkewXTick.get_view_interval, h,
      interval_contains_iff]

/-- C5: on a layout pass the generated top spine is a `SkewSpine` and
overwrites its path X coordinates with the upper interval in the order
`upper_xlim` returns, leaving Y untouched; the generated bottom, left
and right spines are standard spines tracking the direct view limits
with no override. -/
theorem top_spine_tracks_upper_interval (st : SkewXAxes) (xs ys : ℚ × ℚ) :
    spine_layout_adjust st ⟨SpineType.top, xs, ys⟩ =
      ⟨SpineType.top, st.upper_xlim, ys⟩ ∧
    spine_layout_adjust st ⟨SpineType.bottom, xs, ys⟩ =
      ⟨SpineType.bottom, (st.xlo, st.xhi), ys⟩ ∧
    spine_layout_adjust st ⟨SpineType.left, xs, ys⟩ =
      ⟨SpineType.left, xs, (st.ylo, st.yhi)⟩ ∧
    spine_layout_adjust st ⟨SpineType.right, xs, ys⟩ =
      ⟨SpineType.right, xs, (st.ylo, st.yhi)⟩ ∧
    gen_axes_spines_is_skew SpineType.top = true ∧
    gen_axes_spines_is_skew SpineType.bottom = false ∧
    gen_axes_spines_is_skew SpineType.left = false ∧
    gen_axes_spines_is_skew SpineType.right = false := by
  refine ⟨?_, rfl, rfl, rfl, rfl, rfl, rfl, rfl⟩
  simp [spine_layout_adjust, gen_axes_spines_is_skew, SkewSpine_adjust_location]

/-- C6 (amended): the transform build performs no degenerate-input
validation; with zero-width X view limits the derived upper interval is
silently computed as the junk value `(0, 0)` of total division (the
exact-arithmetic counterpart of the non-finite values float arithmetic
produces) and no error is surfaced to the caller. -/
theorem degenerate_limits_silent_junk (ys : AxScale) (xv ylo yhi t : ℚ)
    (ax : Affine2) :
    SkewXAxes.upper_xlim ⟨linearScale, ys, xv, xv, ylo, yhi, t, ax⟩ = (0, 0) := by
  simp [SkewXAxes.upper_xlim, SkewXAxes.transDataToAxes_invApply,
    SkewXAxes.transScaleInv, SkewXAxes.preAffine, SkewXAxes.transLimits,
    SkewXAxes.sxlo, SkewXAxes.sxhi, SkewXAxes.sylo, SkewXAxes.syhi,
    bboxTransformFrom, skew_deg, Affine2.compose, Affine2.inverted,
    Affine2.det, Affine2.apply, linearScale, sub_self, div_zero]

/-- C6 counterexample: at the concrete zero-width state the transform is
built without any failure (the composed map is simply singular,
determinant zero) and accessing the upper interval silently yields the
junk pair `(0, 0)` — no error is surfaced, refuting the fail-fast
claim. -/
theorem degenerate_limits_no_failfast :
    degenState.upper_xlim = (0, 0) ∧ degenState.preAffine.det = 0 := by
  constructor
  · norm_num [degenState, SkewXAxes.upper_xlim, SkewXAxes.transDataToAxes_invApply,
      SkewXAxes.transScaleInv, SkewXAxes.preAffine, SkewXAxes.transLimits,
      SkewXAxes.sxlo, SkewXAxes.sxhi, SkewXAxes.sylo, SkewXAxes.syhi,
      bboxTransformFrom, skew_deg, Affine2.compose, Affine2.inverted,
      Affine2.det, Affine2.apply, linearScale]
  · norm_num [degenState, SkewXAxes.preAffine, SkewXAxes.transLimits,
      SkewXAxes.sxlo, SkewXAxes.sxhi, SkewXAxes.sylo, SkewXAxes.syhi,
      bboxTransformFrom, skew_deg, Affine2.compose, Affine2.det, linearScale]

/-- C7: a tick whose location is unset satisfies both edge-eligibility
predicates regardless of the current intervals, so every visibility
getter returns exactly its stored flag: the tick is eligible for marks
and labels on both edges and for its gridline. -/
theorem default_loc_always_eligible (st : SkewXAxes) (g t1 l1 t2 l2 : Bool) :
    SkewXTick.need_lower st ⟨none, g, t1, l1, t2, l2⟩ = true ∧
    SkewXTick.need_upper st ⟨none, g, t1, l1, t2, l2⟩ = true ∧
    SkewXTick.has_default_loc ⟨none, g, t1, l1, t2, l2⟩ = true ∧
    SkewXTick.tick1On st ⟨none, g, t1, l1, t2, l2⟩ = t1 ∧
    SkewXTick.label1On st ⟨none, g, t1, l1, t2, l2⟩ = l1 ∧
    SkewXTick.tick2On st ⟨none, g, t1, l1, t2, l2⟩ = t2 ∧
    SkewXTick.label2On st ⟨none, g, t1, l1, t2, l2⟩ = l2 ∧
    SkewXTick.gridOn st ⟨none, g, t1, l1, t2, l2⟩ = g := by
  simp [SkewXTick.need_lower, SkewXTick.need_upper, SkewXTick.has_default_loc,
    SkewXTick.tick1On, SkewXTick.label1On, SkewXTick.tick2On,
    SkewXTick.label2On, SkewXTick.gridOn]

/-- C9: with a linear X scale and nondegenerate view limits, the upper
interval is a pure horizontal translation of the lower interval: the
widths agree and both bounds are shifted by `-t` times the lower width,
where `t` models `tan(30 degrees)`. -/
theorem upper_interval_is_translated_lower (st : SkewXAxes)
    (hlin : st.xscale = linearScale)
    (hx : st.xhi - st.xlo ≠ 0) (hy : st.syhi - st.sylo ≠ 0) :
    st.upper_xlim.2 - st.upper_xlim.1 =
      st.lower_xlim.2 - st.lower_xlim.1 ∧
    st.upper_xlim.1 =
      st.lower_xlim.1 - st.t * (st.lower_xlim.2 - st.lower_xlim.1) ∧
    st.upper_xlim.2 =
      st.lower_xlim.2 - st.t * (st.lower_xlim.2 - st.lower_xlim.1) := by
  have hsx : st.sxhi - st.sxlo ≠ 0 := by
    simpa [SkewXAxes.sxhi, SkewXAxes.sxlo, hlin, linearScale] using hx
  rw [st.upper_xlim_closed hsx hy]
  simp only [SkewXAxes.sxhi, SkewXAxes.sxlo, hlin, linearScale,
    SkewXAxes.lower_xlim]
  refine ⟨by ring, trivial, trivial⟩

/-- Witness for C9 at the concrete demo state. -/
theorem upper_interval_is_translated_lower_witness :
    exampleState.upper_xlim.2 - exampleState.upper_xlim.1 =
      exampleState.lower_xlim.2 - exampleState.lower_xlim.1 ∧
    exampleState.upper_xlim.1 =
      exampleState.lower_xlim.1 -
        exampleState.t * (exampleState.lower_xlim.2 - exampleState.lower_xlim.1) ∧
    exampleState.upper_xlim.2 =
      exampleState.lower_xlim.2 -
        exampleState.t * (exampleState.lower_xlim.2 - exampleState.lower_xlim.1) :=
  upper_interval_is_translated_lower exampleState rfl
    (by norm_num [exampleState])
    (by norm_num [SkewXAxes.syhi, SkewXAxes.sylo, exampleState, linearScale])

/-- C10: each visibility setter stores only the raw flag (the location is
untouched), while the getter recomputes the flag AND the containment
predicate over the current intervals, so assignment does not round-trip:
reading back yields the assigned value conjoined with containment, and
assigning `true` can read back `false` when the location lies outside
the relevant interval. -/
theorem visibility_setter_getter (st : SkewXAxes) (tk : SkewXTick) (v : Bool) :
    (SkewXTick.set_tick1On tk v).tick1OnFlag = v ∧
    (SkewXTick.set_tick1On tk v).loc = tk.loc ∧
    SkewXTick.tick1On st (SkewXTick.set_tick1On tk v) =
      (v && SkewXTick.need_lower st tk) ∧
    SkewXTick.label1On st (SkewXTick.set_label1On tk v) =
      (v && SkewXTick.need_lower st tk) ∧
    SkewXTick.tick2On st (SkewXTick.set_tick2On tk v) =
      (v && SkewXTick.need_upper st tk) ∧
    SkewXTick.label2On st (SkewXTick.set_label2On tk v) =
      (v && SkewXTick.need_upper st tk) ∧
    SkewXTick.gridOn st (SkewXTick.set_gridOn tk v) =
      (v && SkewXTick.gridOn st (SkewXTick.set_gridOn tk true)) ∧
    (∃ st2 : SkewXAxes, ∃ tk2 : SkewXTick,
      SkewXTick.tick1On st2 (SkewXTick.set_tick1On tk2 true) = false) := by
  refine ⟨rfl, rfl, rfl, rfl, rfl, rfl, ?_, ?_⟩
  · cases v <;> rfl
  · refine ⟨unitState, ⟨some 5, true, true, true, true, true⟩, ?_⟩
    norm_num [unitState, SkewXTick.tick1On, SkewXTick.set_tick1On,
      SkewXTick.need_lower, SkewXAxes.lower_xlim, interval_contains]

end SkewT
